import Mathlib

/-
Verification of the tidal spin effect of reboundx (src/tides_spin.c) against
its natural-language specification.  The C file is shallowly embedded over
the real numbers: `struct reb_vec3d` becomes `Vec3`, `struct reb_particle`
together with the per-particle entries of the rebx parameter store becomes
`Particle` (an absent tag is `none`), and the simulation's list of real
(non-variational) particles together with the gravitational constant becomes
`Sim`.  In-place mutation of the particle array is modelled by returning an
updated list; the fatal/non-fatal error channels are modelled by Boolean
flags in the return values.
-/

noncomputable section

/-- Embedding of `struct reb_vec3d`: a 3-vector of reals. -/
structure Vec3 where
  x : ℝ
  y : ℝ
  z : ℝ
deriving Inhabited

def Vec3.zero : Vec3 := ⟨0, 0, 0⟩

def Vec3.add (a b : Vec3) : Vec3 := ⟨a.x + b.x, a.y + b.y, a.z + b.z⟩

def Vec3.sub (a b : Vec3) : Vec3 := ⟨a.x - b.x, a.y - b.y, a.z - b.z⟩

def Vec3.neg (a : Vec3) : Vec3 := ⟨-a.x, -a.y, -a.z⟩

def Vec3.smul (c : ℝ) (a : Vec3) : Vec3 := ⟨c * a.x, c * a.y, c * a.z⟩

def Vec3.dot (a b : Vec3) : ℝ := a.x * b.x + a.y * b.y + a.z * b.z

def Vec3.cross (a b : Vec3) : Vec3 :=
  ⟨a.y * b.z - a.z * b.y, a.z * b.x - a.x * b.z, a.x * b.y - a.y * b.x⟩

/-- Embedding of `struct reb_particle` together with the per-particle
parameter-store entries that tides_spin.c reads through `rebx_get_param`
(keys `k2`, `sigma`, `moi`, `sx`, `sy`, `sz`); an absent tag is `none`. -/
structure Particle where
  m : ℝ
  r : ℝ
  x : ℝ
  y : ℝ
  z : ℝ
  vx : ℝ
  vy : ℝ
  vz : ℝ
  ax : ℝ
  ay : ℝ
  az : ℝ
  k2 : Option ℝ
  sigma : Option ℝ
  moi : Option ℝ
  sx : Option ℝ
  sy : Option ℝ
  sz : Option ℝ
deriving Inhabited

/-- Embedding of the simulation state visible to tides_spin.c: the list of
real (non-variational) particles `sim->particles[0 .. N_real)` and the
gravitational constant `sim->G`. -/
structure Sim where
  particles : List Particle
  G : ℝ

/-- Embedding of `rebx_calculate_spin_orbit_accelerations` (tides_spin.c
lines 71-144): the pure pairwise force kernel.  All parameters `k2`,
`sigma`, `sx`, `sy`, `sz` belong to the source body. -/
def rebx_calculate_spin_orbit_accelerations (source target : Particle)
    (G k2 sigma sx sy sz : ℝ) : Vec3 :=
  let ms := source.m
  let Rs := source.r
  let mt := target.m
  let mtot := ms + mt
  let mu_ij := ms * mt / mtot
  let big_a := k2 * (Rs * Rs * Rs * Rs * Rs)
  let dx := source.x - target.x
  let dy := source.y - target.y
  let dz := source.z - target.z
  let d2 := dx * dx + dy * dy + dz * dz
  let dr := Real.sqrt d2
  let dvx := source.vx - target.vx
  let dvy := source.vy - target.vy
  let dvz := source.vz - target.vz
  if k2 ≠ 0 then
    let quad_prefactor := mt * big_a / mu_ij
    let omega_dot_d := sx * dx + sy * dy + sz * dz
    let omega_squared := sx * sx + sy * sy + sz * sz
    let t1 := 5 * omega_dot_d * omega_dot_d / (2 * (dr * dr * dr * dr * dr * dr * dr))
    let t2 := omega_squared / (2 * (dr * dr * dr * dr * dr))
    let t3 := omega_dot_d / (dr * dr * dr * dr * dr)
    let t4 := 6 * G * mt / (dr * dr * dr * dr * dr * dr * dr * dr)
    let fx := quad_prefactor * ((t1 - t2 - t4) * dx - t3 * sx)
    let fy := quad_prefactor * ((t1 - t2 - t4) * dy - t3 * sy)
    let fz := quad_prefactor * ((t1 - t2 - t4) * dz - t3 * sz)
    if sigma ≠ 0 then
      let d_dot_vel := dx * dvx + dy * dvy + dz * dvz
      let vec1_x := 3 * d_dot_vel * dx
      let vec1_y := 3 * d_dot_vel * dy
      let vec1_z := 3 * d_dot_vel * dz
      let hx := dy * dvz - dz * dvy
      let hy := dz * dvx - dx * dvz
      let hz := dx * dvy - dy * dvx
      let comp_2_x := hx - d2 * sx
      let comp_2_y := hy - d2 * sy
      let comp_2_z := hz - d2 * sz
      let vec2_x := comp_2_y * dz - comp_2_z * dy
      let vec2_y := comp_2_z * dx - comp_2_x * dz
      let vec2_z := comp_2_x * dy - comp_2_y * dx
      let prefactor := (-9 * sigma * mt * mt * big_a * big_a) /
        (2 * mu_ij * (d2 * d2 * d2 * d2 * d2))
      ⟨fx + prefactor * (vec1_x + vec2_x),
       fy + prefactor * (vec1_y + vec2_y),
       fz + prefactor * (vec1_z + vec2_z)⟩
    else ⟨fx, fy, fz⟩
  else ⟨0, 0, 0⟩

/-- The quadrupole branch of the kernel (tides_spin.c lines 98-109),
transcribed on its own so the two contributions to the returned force can be
named separately. -/
def quad_term (source target : Particle) (G k2 sx sy sz : ℝ) : Vec3 :=
  let ms := source.m
  let Rs := source.r
  let mt := target.m
  let mtot := ms + mt
  let mu_ij := ms * mt / mtot
  let big_a := k2 * (Rs * Rs * Rs * Rs * Rs)
  let dx := source.x - target.x
  let dy := source.y - target.y
  let dz := source.z - target.z
  let d2 := dx * dx + dy * dy + dz * dz
  let dr := Real.sqrt d2
  let quad_prefactor := mt * big_a / mu_ij
  let omega_dot_d := sx * dx + sy * dy + sz * dz
  let omega_squared := sx * sx + sy * sy + sz * sz
  let t1 := 5 * omega_dot_d * omega_dot_d / (2 * (dr * dr * dr * dr * dr * dr * dr))
  let t2 := omega_squared / (2 * (dr * dr * dr * dr * dr))
  let t3 := omega_dot_d / (dr * dr * dr * dr * dr)
  let t4 := 6 * G * mt / (dr * dr * dr * dr * dr * dr * dr * dr)
  ⟨quad_prefactor * ((t1 - t2 - t4) * dx - t3 * sx),
   quad_prefactor * ((t1 - t2 - t4) * dy - t3 * sy),
   quad_prefactor * ((t1 - t2 - t4) * dz - t3 * sz)⟩

/-- The dissipative branch of the kernel (tides_spin.c lines 111-139),
transcribed on its own.  It does not involve `G` or the square root of the
squared separation. -/
def diss_term (source target : Particle) (k2 sigma sx sy sz : ℝ) : Vec3 :=
  let ms := source.m
  let Rs := source.r
  let mt := target.m
  let mtot := ms + mt
  let mu_ij := ms * mt / mtot
  let big_a := k2 * (Rs * Rs * Rs * Rs * Rs)
  let dx := source.x - target.x
  let dy := source.y - target.y
  let dz := source.z - target.z
  let d2 := dx * dx + dy * dy + dz * dz
  let dvx := source.vx - target.vx
  let dvy := source.vy - target.vy
  let dvz := source.vz - target.vz
  let d_dot_vel := dx * dvx + dy * dvy + dz * dvz
  let vec1_x := 3 * d_dot_vel * dx
  let vec1_y := 3 * d_dot_vel * dy
  let vec1_z := 3 * d_dot_vel * dz
  let hx := dy * dvz - dz * dvy
  let hy := dz * dvx - dx * dvz
  let hz := dx * dvy - dy * dvx
  let comp_2_x := hx - d2 * sx
  let comp_2_y := hy - d2 * sy
  let comp_2_z := hz - d2 * sz
  let vec2_x := comp_2_y * dz - comp_2_z * dy
  let vec2_y := comp_2_z * dx - comp_2_x * dz
  let vec2_z := comp_2_x * dy - comp_2_y * dx
  let prefactor := (-9 * sigma * mt * mt * big_a * big_a) /
    (2 * mu_ij * (d2 * d2 * d2 * d2 * d2))
  ⟨prefactor * (vec1_x + vec2_x),
   prefactor * (vec1_y + vec2_y),
   prefactor * (vec1_z + vec2_z)⟩

/-- The quadrupole term written exactly as claim C1 words it: prefactor
m_target (k2 R_source^5)/mu applied to a combination of the spin-separation
dot product, the squared spin magnitude and inverse powers of the
separation distance r (orders 5 through 8), directed along the separation
vector and along the spin vector. -/
def quadSpecFormula (source target : Particle) (G k2 sx sy sz : ℝ) : Vec3 :=
  let mu := source.m * target.m / (source.m + target.m)
  let dvec : Vec3 := ⟨source.x - target.x, source.y - target.y, source.z - target.z⟩
  let omega : Vec3 := ⟨sx, sy, sz⟩
  let r := Real.sqrt (Vec3.dot dvec dvec)
  let t1 := 5 * Vec3.dot omega dvec ^ 2 / (2 * r ^ 7)
  let t2 := Vec3.dot omega omega / (2 * r ^ 5)
  let t3 := Vec3.dot omega dvec / r ^ 5
  let t4 := 6 * G * target.m / r ^ 8
  Vec3.smul (target.m * (k2 * source.r ^ 5) / mu)
    (Vec3.add (Vec3.smul (t1 - t2 - t4) dvec) (Vec3.smul (-t3) omega))

/-- The dissipative term written exactly as claim C1 words it:
-9 sigma m_target^2 (k2 R_source^5)^2 / (2 mu r^10) times
(3 (r.v) r + (h - r^2 Omega) x r), with r the separation vector from source
to target's position subtracted from source's, v the relative velocity,
h = r x v and Omega the source's spin vector. -/
def dissSpecFormula (source target : Particle) (k2 sigma sx sy sz : ℝ) : Vec3 :=
  let mu := source.m * target.m / (source.m + target.m)
  let dvec : Vec3 := ⟨source.x - target.x, source.y - target.y, source.z - target.z⟩
  let vvec : Vec3 := ⟨source.vx - target.vx, source.vy - target.vy, source.vz - target.vz⟩
  let omega : Vec3 := ⟨sx, sy, sz⟩
  let r := Real.sqrt (Vec3.dot dvec dvec)
  let hvec := Vec3.cross dvec vvec
  Vec3.smul (-9 * sigma * target.m ^ 2 * (k2 * source.r ^ 5) ^ 2 / (2 * mu * r ^ 10))
    (Vec3.add (Vec3.smul (3 * Vec3.dot dvec vvec) dvec)
      (Vec3.cross (Vec3.sub hvec (Vec3.smul (r ^ 2) omega)) dvec))

/-- Negate the velocity of a particle, leaving every other field unchanged.
Applying this to both members of a pair negates their relative velocity. -/
def negVel (p : Particle) : Particle :=
  { p with vx := -p.vx, vy := -p.vy, vz := -p.vz }

/-- A concrete source body used to instantiate the hypotheses of the claims:
unit mass and radius at position (1,0,0) with velocity (0,1,0), tagged with
k2 = 1, sigma = 1, moi = 1 and spin (0,0,1). -/
def pEx : Particle :=
  { m := 1, r := 1, x := 1, y := 0, z := 0, vx := 0, vy := 1, vz := 0,
    ax := 0, ay := 0, az := 0,
    k2 := some 1, sigma := some 1, moi := some 1,
    sx := some 0, sy := some 0, sz := some 1 }

/-- A concrete untagged target body at the origin with unit mass and radius
and zero velocity. -/
def qEx : Particle :=
  { m := 1, r := 1, x := 0, y := 0, z := 0, vx := 0, vy := 0, vz := 0,
    ax := 0, ay := 0, az := 0,
    k2 := none, sigma := none, moi := none, sx := none, sy := none, sz := none }

/-- A concrete two-body simulation: pEx (fully tagged) and qEx (untagged),
with G = 1. -/
def simEx : Sim := { particles := [pEx, qEx], G := 1 }


/-- Embedding of `rebx_spin_orbit_accelerations` (tides_spin.c lines
146-164): computes the kernel force once and splits it into the two bodies'
acceleration updates with mass-ratio weights.  The C code mutates the two
particles through pointers; here the updated (source, target) pair is
returned. -/
def rebx_spin_orbit_accelerations (source target : Particle)
    (G k2 sigma sx sy sz : ℝ) : Particle × Particle :=
  let ms := source.m
  let mt := target.m
  let mtot := ms + mt
  let tot_force := rebx_calculate_spin_orbit_accelerations source target G k2 sigma sx sy sz
  ({ source with
      ax := source.ax + (mt / mtot) * tot_force.x,
      ay := source.ay + (mt / mtot) * tot_force.y,
      az := source.az + (mt / mtot) * tot_force.z },
   { target with
      ax := target.ax - (ms / mtot) * tot_force.x,
      ay := target.ay - (ms / mtot) * tot_force.y,
      az := target.az - (ms / mtot) * tot_force.z })

/-- The inner j-loop of `rebx_tides_spin` (tides_spin.c lines 321-331) for a
fixed source index i whose parameters have already been read: skip j = i,
skip pairs with a zero mass, otherwise apply the pair accumulator to the
current particle list. -/
def tides_spin_inner (G k2 sigma sx sy sz : ℝ) (i N : ℕ)
    (ps0 : List Particle) : List Particle :=
  (List.range N).foldl (fun acc j =>
    if i = j then acc
    else
      let source := acc.getD i default
      let target := acc.getD j default
      if source.m = 0 ∨ target.m = 0 then acc
      else
        let st := rebx_spin_orbit_accelerations source target G k2 sigma sx sy sz
        (acc.set i st.1).set j st.2) ps0

/-- Embedding of `rebx_tides_spin` (tides_spin.c lines 294-334): for every
source particle with all three spin components and k2 set (sigma defaulting
to 0 when absent), run the inner pair loop.  The C warning emitted when no
auxiliary ODE is registered does not change any particle and is not
modelled. -/
def rebx_tides_spin (G : ℝ) (ps : List Particle) : List Particle :=
  (List.range ps.length).foldl (fun acc i =>
    let source := acc.getD i default
    match source.sx, source.sy, source.sz, source.k2 with
    | some sxv, some syv, some szv, some k2v =>
        tides_spin_inner G k2v (source.sigma.getD 0) sxv syv szv i ps.length acc
    | _, _, _, _ => acc) ps

/-- Two particles agree on every field and parameter tag except possibly the
three acceleration components. -/
def eqExceptAccel (p q : Particle) : Prop :=
  p.m = q.m ∧ p.r = q.r ∧ p.x = q.x ∧ p.y = q.y ∧ p.z = q.z ∧
  p.vx = q.vx ∧ p.vy = q.vy ∧ p.vz = q.vz ∧
  p.k2 = q.k2 ∧ p.sigma = q.sigma ∧ p.moi = q.moi ∧
  p.sx = q.sx ∧ p.sy = q.sy ∧ p.sz = q.sz

/-- Eligibility criterion of `rebx_spin_derivatives` (tides_spin.c line
178): the body must have both k2 and moi set. -/
def spin_elig (p : Particle) : Bool := p.k2.isSome && p.moi.isSome

/-- One iteration of the inner j-loop of `rebx_spin_derivatives`
(tides_spin.c lines 194-212): accumulate into the running derivative the
torque exerted through the kernel force with body i as source. -/
def spin_torque_step (sim : Sim) (i : ℕ) (sx sy sz k2 sigma_in moi : ℝ)
    (acc : Vec3) (j : ℕ) : Vec3 :=
  if i ≠ j then
    let pti := sim.particles.getD i default
    let ptj := sim.particles.getD j default
    let dx := pti.x - ptj.x
    let dy := pti.y - ptj.y
    let dz := pti.z - ptj.z
    let mi := pti.m
    let mj := ptj.m
    let mu_ij := mi * mj / (mi + mj)
    let tf := rebx_calculate_spin_orbit_accelerations pti ptj sim.G k2 sigma_in sx sy sz
    ⟨acc.x + (dy * tf.z - dz * tf.y) * (-mu_ij / moi),
     acc.y + (dz * tf.x - dx * tf.z) * (-mu_ij / moi),
     acc.z + (dx * tf.y - dy * tf.x) * (-mu_ij / moi)⟩
  else acc

/-- Inner j-loop of `rebx_spin_derivatives`: the spin derivative of body i
accumulated over all other real bodies, with the spin components, k2, sigma
and moi already read out. -/
def spin_torque (sim : Sim) (i : ℕ) (sx sy sz k2 sigma_in moi : ℝ) : Vec3 :=
  (List.range sim.particles.length).foldl
    (spin_torque_step sim i sx sy sz k2 sigma_in moi) Vec3.zero

/-- Outer i-loop of `rebx_spin_derivatives` (tides_spin.c lines 171-215),
as a recursion over the remaining particle indices carrying the running
count `Nspins` of eligible bodies seen so far: each eligible body reads its
spin from slots 3 Nspins .. 3 Nspins + 2 of y and appends its three
derivative components to the output. -/
def spin_derivatives_go (sim : Sim) (y : List ℝ) : List ℕ → ℕ → List ℝ
  | [], _ => []
  | i :: rest, Nspins =>
    let p := sim.particles.getD i default
    match p.k2, p.moi with
    | some k2v, some moiv =>
      let sigma_in := p.sigma.getD 0
      let sxv := y.getD (3 * Nspins) 0
      let syv := y.getD (3 * Nspins + 1) 0
      let szv := y.getD (3 * Nspins + 2) 0
      let tq := spin_torque sim i sxv syv szv k2v sigma_in moiv
      tq.x :: tq.y :: tq.z :: spin_derivatives_go sim y rest (Nspins + 1)
    | _, _ => spin_derivatives_go sim y rest Nspins

/-- Embedding of `rebx_spin_derivatives` (tides_spin.c lines 166-220).  The
time argument t is taken but unused, matching the C signature.  The fatal
length check the C code performs after filling yDot does not change the
computed derivative values. -/
def rebx_spin_derivatives (sim : Sim) (y : List ℝ) (t : ℝ) : List ℝ :=
  spin_derivatives_go sim y (List.range sim.particles.length) 0

/-- Number of eligible bodies (k2 and moi both set), the final value of the
`Nspins` counter in `rebx_spin_derivatives`. -/
def Nelig (sim : Sim) : ℕ := (sim.particles.filter (fun p => spin_elig p)).length

/-- Indices of the eligible bodies, in particle-enumeration order; the rank
of an eligible body in this list fixes its slot group in the spin state
vector. -/
def eligIdx (sim : Sim) : List ℕ :=
  (List.range sim.particles.length).filter
    (fun i => spin_elig (sim.particles.getD i default))

/-- The torque contribution of body j to eligible body i as claim C2 words
it: ((r_i - r_j) x F_ij) scaled by -mu_ij/moi_i, where F_ij is the kernel
force with i as source and the given spin; zero when j = i. -/
def torqueContrib (sim : Sim) (i j : ℕ) (sx sy sz k2 sigma_in moi : ℝ) : Vec3 :=
  if j = i then Vec3.zero
  else
    let pti := sim.particles.getD i default
    let ptj := sim.particles.getD j default
    let rij : Vec3 := ⟨pti.x - ptj.x, pti.y - ptj.y, pti.z - ptj.z⟩
    let mu_ij := pti.m * ptj.m / (pti.m + ptj.m)
    let F := rebx_calculate_spin_orbit_accelerations pti ptj sim.G k2 sigma_in sx sy sz
    Vec3.smul (-mu_ij / moi) (Vec3.cross rij F)

/-- The claimed derivative of eligible body i: the sum of `torqueContrib`
over every real body, componentwise, with k2, sigma (0 when absent) and moi
read from body i's parameter tags. -/
def torqueSpec (sim : Sim) (i : ℕ) (sx sy sz : ℝ) : Vec3 :=
  let p := sim.particles.getD i default
  ⟨∑ j ∈ Finset.range sim.particles.length,
      (torqueContrib sim i j sx sy sz (p.k2.getD 0) (p.sigma.getD 0) (p.moi.getD 0)).x,
   ∑ j ∈ Finset.range sim.particles.length,
      (torqueContrib sim i j sx sy sz (p.k2.getD 0) (p.sigma.getD 0) (p.moi.getD 0)).y,
   ∑ j ∈ Finset.range sim.particles.length,
      (torqueContrib sim i j sx sy sz (p.k2.getD 0) (p.sigma.getD 0) (p.moi.getD 0)).z⟩

/-- The triple of slots 3n, 3n+1, 3n+2 of a flat state vector. -/
def getTriple (l : List ℝ) (n : ℕ) : Vec3 :=
  ⟨l.getD (3 * n) 0, l.getD (3 * n + 1) 0, l.getD (3 * n + 2) 0⟩

/-- Embedding of `struct reb_ode` as seen by the synchronization callbacks:
the flat state vector `y` and the declared length. -/
structure Ode where
  y : List ℝ
  length : ℕ

/-- Loop body of `rebx_spin_sync_pre` (tides_spin.c lines 227-239): for every
particle with k2 set, copy its three spin tags into the next slot triple of
the state vector and advance the counter; returns the final counter and the
written vector.  The C code dereferences the sx/sy/sz tags without a null
check (undefined when absent); the embedding reads them with default 0. -/
def sync_pre_go : List Particle → ℕ → List ℝ → ℕ × List ℝ
  | [], n, y => (n, y)
  | p :: rest, n, y =>
    if p.k2.isSome then
      sync_pre_go rest (n + 1)
        (((y.set (3 * n) (p.sx.getD 0)).set (3 * n + 1) (p.sy.getD 0)).set
          (3 * n + 2) (p.sz.getD 0))
    else sync_pre_go rest n y

/-- Embedding of `rebx_spin_sync_pre` (tides_spin.c lines 222-245): runs the
copy loop, then flags the fatal length-mismatch error (raised through
`reb_error` and `exit(1)` in C) when the declared length differs from three
times the number of bodies with k2 set. -/
def rebx_spin_sync_pre (sim : Sim) (ode : Ode) : Ode × Bool :=
  let r := sync_pre_go sim.particles 0 ode.y
  ({ y := r.2, length := ode.length }, ode.length != 3 * r.1)

/-- Loop body of `rebx_spin_sync_post` (tides_spin.c lines 252-261): for
every particle with k2 set, write the next slot triple of the evolved state
vector into its sx/sy/sz tags (creating them if absent) and advance the
counter; returns the final counter and the updated particle list. -/
def sync_post_go (y0 : List ℝ) : List Particle → ℕ → ℕ × List Particle
  | [], n => (n, [])
  | p :: rest, n =>
    if p.k2.isSome then
      let p2 := { p with sx := some (y0.getD (3 * n) 0),
                         sy := some (y0.getD (3 * n + 1) 0),
                         sz := some (y0.getD (3 * n + 2) 0) }
      let r := sync_post_go y0 rest (n + 1)
      (r.1, p2 :: r.2)
    else
      let r := sync_post_go y0 rest n
      (r.1, p :: r.2)

/-- Embedding of `rebx_spin_sync_post` (tides_spin.c lines 247-266): runs
the write-back loop over the evolved state vector (the y0 argument the
integrator passes, here the ode's vector), then flags the fatal
length-mismatch error when the declared length differs from three times the
number of bodies with k2 set. -/
def rebx_spin_sync_post (sim : Sim) (ode : Ode) : Sim × Bool :=
  let r := sync_post_go ode.y sim.particles 0
  ({ particles := r.2, G := sim.G }, ode.length != 3 * r.1)

/-- Number of bodies with k2 set: the criterion the pre/post synchronization
callbacks actually count. -/
def countK2 (sim : Sim) : ℕ := (sim.particles.filter (fun p => p.k2.isSome)).length

/-- The criterion used at ODE creation (tides_spin.c line 279): moi and all
three spin components set; k2 is not consulted. -/
def moi_spin_set (p : Particle) : Bool :=
  p.moi.isSome && p.sx.isSome && p.sy.isSome && p.sz.isSome

/-- Number of bodies satisfying the moi+spin-tag criterion of ODE
creation. -/
def countMoiSpin (sim : Sim) : ℕ :=
  (sim.particles.filter (fun p => moi_spin_set p)).length

/-- The spin ODE object `rebx_spin_initialize_ode` registers: its length
and the three callbacks it attaches (`derivatives`, `pre_timestep`,
`post_timestep`).  The C code also records the object on the effect's
parameter store under the key `ode`; the embedding models that record as
the returned option. -/
structure SpinOde where
  length : ℕ
  derivatives : List ℝ → ℝ → List ℝ
  pre_timestep : Ode → Ode × Bool
  post_timestep : Ode → Sim × Bool

/-- Embedding of `rebx_spin_initialize_ode` (tides_spin.c lines 268-292):
count the bodies with moi and full spin vector set; when the count is
positive, create the spin ODE of length 3 Nspins with the three callbacks
attached, otherwise create nothing and leave everything unchanged. -/
def rebx_spin_initialize_ode (sim : Sim) : Option SpinOde :=
  let Nspins := countMoiSpin sim
  if 0 < Nspins then
    some { length := Nspins * 3,
           derivatives := rebx_spin_derivatives sim,
           pre_timestep := rebx_spin_sync_pre sim,
           post_timestep := rebx_spin_sync_post sim }
  else none

/-- Embedding of `rebx_calculate_spin_potential` (tides_spin.c lines
337-351): the conservative tidal potential of one ordered pair; note it
uses the source's k2 but the target's radius, and the separation taken in
reverse order. -/
def rebx_calculate_spin_potential (source target : Particle) (G k2 : ℝ) : ℝ :=
  let ms := source.m
  let mt := target.m
  let Rt := target.r
  let mratio := ms / mt
  let fac := mratio * k2 * Rt * Rt * Rt * Rt * Rt
  let dx := target.x - source.x
  let dy := target.y - source.y
  let dz := target.z - source.z
  let dr2 := dx * dx + dy * dy + dz * dz;
  -1 / 2 * G * ms * mt / (dr2 * dr2 * dr2) * fac

/-- One iteration of the inner j-loop of `rebx_spin_potential` (tides_spin.c
lines 372-381): skip the self-pair and pairs with a zero mass, otherwise
accumulate the pair potential. -/
def spin_potential_inner_step (sim : Sim) (i : ℕ) (H2 : ℝ) (j : ℕ) : ℝ :=
  let source := sim.particles.getD i default
  if i = j then H2
  else
    let target := sim.particles.getD j default
    if source.m = 0 ∨ target.m = 0 then H2
    else H2 + rebx_calculate_spin_potential source target sim.G (source.k2.getD 0)

/-- One iteration of the outer i-loop of `rebx_spin_potential`: skip sources
without k2 or sigma or with zero radius or mass, otherwise run the inner
j-loop. -/
def spin_potential_outer_step (sim : Sim) (H : ℝ) (i : ℕ) : ℝ :=
  let source := sim.particles.getD i default
  if source.k2 = none ∨ source.sigma = none ∨ source.r = 0 ∨ source.m = 0 then H
  else (List.range sim.particles.length).foldl (spin_potential_inner_step sim i) H

/-- Embedding of `rebx_spin_potential` (tides_spin.c lines 353-385): the
double loop over ordered pairs.  The NULL-simulation guard of the C code
cannot arise here because a `Sim` is always supplied. -/
def rebx_spin_potential (sim : Sim) : ℝ :=
  (List.range sim.particles.length).foldl (spin_potential_outer_step sim) 0

/-- The potential contribution of the ordered pair (i, j) as claim C7 words
it: -(1/2) G m_source m_target (m_source/m_target) k2 R_target^5 / r^6,
with k2 the source's Love number, R_target the target's radius and r the
pair separation. -/
def potSpecTerm (sim : Sim) (i j : ℕ) : ℝ :=
  let source := sim.particles.getD i default
  let target := sim.particles.getD j default
  let r := Real.sqrt ((target.x - source.x) ^ 2 + (target.y - source.y) ^ 2 +
    (target.z - source.z) ^ 2);
  -(1 / 2) * sim.G * source.m * target.m * (source.m / target.m) *
    source.k2.getD 0 * target.r ^ 5 / r ^ 6

/-- The eligibility condition of an ordered pair in the potential sum as
claim C7 words it: distinct indices, source with k2 and sigma set, nonzero
radius and mass, target with nonzero mass. -/
def potPairOK (sim : Sim) (i j : ℕ) : Prop :=
  i ≠ j ∧ (sim.particles.getD i default).k2 ≠ none ∧
  (sim.particles.getD i default).sigma ≠ none ∧
  (sim.particles.getD i default).r ≠ 0 ∧
  (sim.particles.getD i default).m ≠ 0 ∧
  (sim.particles.getD j default).m ≠ 0

instance (sim : Sim) (i j : ℕ) : Decidable (potPairOK sim i j) := by
  unfold potPairOK
  infer_instance

/-- The value the inner loop of the potential adds for the pair (i, j):
zero on a skip branch, the pair potential otherwise. -/
def potInnerG (sim : Sim) (i j : ℕ) : ℝ :=
  if i = j then 0
  else if (sim.particles.getD i default).m = 0 ∨
      (sim.particles.getD j default).m = 0 then 0
  else rebx_calculate_spin_potential (sim.particles.getD i default)
    (sim.particles.getD j default) sim.G
    ((sim.particles.getD i default).k2.getD 0)

/-- The value the outer loop of the potential adds for source i: zero for a
skipped source, the inner-loop total otherwise. -/
def potOuterG (sim : Sim) (i : ℕ) : ℝ :=
  if (sim.particles.getD i default).k2 = none ∨
      (sim.particles.getD i default).sigma = none ∨
      (sim.particles.getD i default).r = 0 ∨
      (sim.particles.getD i default).m = 0 then 0
  else ((List.range sim.particles.length).map (potInnerG sim i)).sum

/-- Embedding of `rebx_tides_calc_sigma_from_tau` (tides_spin.c lines
388-402).  The Boolean records whether the non-fatal configuration error
was reported (in which case the sentinel 0 is returned). -/
def rebx_tides_calc_sigma_from_tau (G : ℝ) (body : Particle) (tau : ℝ) : ℝ × Bool :=
  let r := body.r
  if body.k2.isSome ∧ r ≠ 0 then
    (4 * tau * G / (3 * (r * r * r * r * r) * body.k2.getD 0), false)
  else (0, true)

/-- Embedding of `rebx_tides_calc_sigma_from_Q` (tides_spin.c lines
404-418).  The mean motion n of the body about the primary is computed in C
by the external rebound routine `reb_tools_particle_to_orbit`, which is
outside this module; it enters here as the argument n.  The Boolean records
whether the non-fatal configuration error was reported. -/
def rebx_tides_calc_sigma_from_Q (G : ℝ) (body primary : Particle)
    (Q n : ℝ) : ℝ × Bool :=
  let r := body.r
  if body.k2.isSome ∧ r ≠ 0 then
    (2 * G / (3 * Q * (r * r * r * r * r) * body.k2.getD 0 * n), false)
  else (0, true)

/-- A body with moi and the full spin vector set but no k2: it satisfies the
ODE-creation criterion but not the criterion the synchronization callbacks
count. -/
def mEx : Particle :=
  { m := 1, r := 1, x := 0, y := 0, z := 0, vx := 0, vy := 0, vz := 0,
    ax := 0, ay := 0, az := 0,
    k2 := none, sigma := none, moi := some 1,
    sx := some 2, sy := some 3, sz := some 4 }

/-- A one-body simulation containing only mEx. -/
def simM : Sim := { particles := [mEx], G := 1 }

/-- A state vector of length 3: the length the moi+spin criterion predicts
for simM. -/
def odeM : Ode := { y := [9, 9, 9], length := 3 }

/-- A one-body simulation containing only pEx (which has k2 set). -/
def simP : Sim := { particles := [pEx], G := 1 }

/-- A state vector whose declared length 0 mismatches the one k2-tagged
body of simP. -/
def odeP : Ode := { y := [10, 11, 12], length := 0 }

/-- The kernel decomposes into the quadrupole branch plus (when sigma is
nonzero) the dissipative branch, exactly as the nested `if`s of the C code
stack the two contributions. -/
theorem kernel_decomposition (source target : Particle) (G k2 sigma sx sy sz : ℝ)
    (hk2 : k2 ≠ 0) :
    rebx_calculate_spin_orbit_accelerations source target G k2 sigma sx sy sz =
      Vec3.add (quad_term source target G k2 sx sy sz)
        (if sigma = 0 then Vec3.zero
         else diss_term source target k2 sigma sx sy sz) := by
  simp only [rebx_calculate_spin_orbit_accelerations, quad_term, diss_term,
    Vec3.add, Vec3.zero, hk2, if_true, ne_eq, not_false_eq_true, ite_true]
  by_cases hs : sigma = 0
  · simp [hs]
  · simp only [hs, not_false_eq_true, if_true, ite_false, if_neg hs]

/-- C5: for every pair of body states and for all values of G, sigma and the
spin vector, if k2 = 0 the force kernel returns exactly the zero vector. -/
theorem C5_kernel_zero_when_k2_zero (source target : Particle)
    (G k2 sigma sx sy sz : ℝ) (hk2 : k2 = 0) :
    rebx_calculate_spin_orbit_accelerations source target G k2 sigma sx sy sz =
      Vec3.zero := by
  simp [rebx_calculate_spin_orbit_accelerations, hk2, Vec3.zero]

/-- Witness for C5 at a concrete input with k2 = 0. -/
theorem C5_kernel_zero_when_k2_zero_witness :
    rebx_calculate_spin_orbit_accelerations pEx qEx 3 0 5 7 8 9 = Vec3.zero :=
  C5_kernel_zero_when_k2_zero pEx qEx 3 0 5 7 8 9 rfl

/-- The quadrupole branch of the C code equals the quadrupole formula as the
claim words it. -/
theorem quad_term_eq_spec (source target : Particle) (G k2 sx sy sz : ℝ) :
    quad_term source target G k2 sx sy sz =
      quadSpecFormula source target G k2 sx sy sz := by
  simp only [quad_term, quadSpecFormula, Vec3.dot, Vec3.add, Vec3.smul]
  rw [Vec3.mk.injEq]
  refine ⟨by ring, by ring, by ring⟩

/-- The dissipative branch of the C code equals the dissipative formula as
the claim words it; the code's powers of the squared separation match the
claim's powers of the separation distance r. -/
theorem diss_term_eq_spec (source target : Particle) (k2 sigma sx sy sz : ℝ) :
    diss_term source target k2 sigma sx sy sz =
      dissSpecFormula source target k2 sigma sx sy sz := by
  have hd2 : (0:ℝ) ≤ (source.x - target.x) * (source.x - target.x) +
      (source.y - target.y) * (source.y - target.y) +
      (source.z - target.z) * (source.z - target.z) :=
    add_nonneg (add_nonneg (mul_self_nonneg _) (mul_self_nonneg _))
      (mul_self_nonneg _)
  have h := Real.sq_sqrt hd2
  simp only [diss_term, dissSpecFormula, Vec3.dot, Vec3.cross, Vec3.sub,
    Vec3.add, Vec3.smul]
  rw [Vec3.mk.injEq]
  set S := Real.sqrt ((source.x - target.x) * (source.x - target.x) +
      (source.y - target.y) * (source.y - target.y) +
      (source.z - target.z) * (source.z - target.z)) with hS
  rw [← h]
  refine ⟨by ring, by ring, by ring⟩

/-- C1: for nonzero masses and nonzero k2 the kernel returns the sum of the
quadrupole term (prefactor m_target (k2 R_source^5)/mu combining the
spin-separation dot product, the squared spin magnitude and inverse powers
r^-5 through r^-8 of the separation distance, directed along the separation
and spin vectors) and, when sigma is nonzero, the dissipative term
-9 sigma m_target^2 (k2 R_source^5)^2/(2 mu r^10) times
(3 (r.v) r + (h - r^2 Omega) x r). -/
theorem C1_kernel_formula (source target : Particle) (G k2 sigma sx sy sz : ℝ)
    (hms : source.m ≠ 0) (hmt : target.m ≠ 0) (hk2 : k2 ≠ 0) :
    rebx_calculate_spin_orbit_accelerations source target G k2 sigma sx sy sz =
      Vec3.add (quadSpecFormula source target G k2 sx sy sz)
        (if sigma = 0 then Vec3.zero
         else dissSpecFormula source target k2 sigma sx sy sz) := by
  rw [kernel_decomposition source target G k2 sigma sx sy sz hk2,
    quad_term_eq_spec, diss_term_eq_spec]

/-- Witness for C1 at concrete bodies with unit masses and k2 = 1. -/
theorem C1_kernel_formula_witness :
    rebx_calculate_spin_orbit_accelerations pEx qEx 1 1 1 0 0 1 =
      Vec3.add (quadSpecFormula pEx qEx 1 1 0 0 1)
        (if (1:ℝ) = 0 then Vec3.zero else dissSpecFormula pEx qEx 1 1 0 0 1) :=
  C1_kernel_formula pEx qEx 1 1 1 0 0 1 (by norm_num [pEx]) (by norm_num [qEx])
    (by norm_num)

/-- Counterexample to C6 as stated: at the concrete pair pEx, qEx (separation
(1,0,0), relative velocity (0,1,0), spin (0,0,1), k2 = sigma = 1), negating
the relative velocity alone does not flip the sign of the dissipative
contribution: the original dissipative term is the zero vector while the
velocity-negated one is (0,18,0), because the r^2 Omega part of
(h - r^2 Omega) x r does not depend on the velocity. -/
theorem C6_counterexample :
    diss_term (negVel pEx) (negVel qEx) 1 1 0 0 1 ≠
      Vec3.neg (diss_term pEx qEx 1 1 0 0 1) := by
  intro hEq
  have hy := congrArg Vec3.y hEq
  simp only [diss_term, Vec3.neg, negVel, pEx, qEx] at hy
  norm_num at hy

/-- C6 amended: negating the relative velocity AND the spin vector (the
genuine time-reversal transformation) leaves the quadrupole contribution
unchanged and exactly flips the sign of the dissipative contribution, so
the kernel value becomes the quadrupole term minus the dissipative term. -/
theorem C6_amended_time_reversal (source target : Particle)
    (G k2 sigma sx sy sz : ℝ) (hk2 : k2 ≠ 0) (hs : sigma ≠ 0) :
    quad_term (negVel source) (negVel target) G k2 (-sx) (-sy) (-sz) =
      quad_term source target G k2 sx sy sz ∧
    diss_term (negVel source) (negVel target) k2 sigma (-sx) (-sy) (-sz) =
      Vec3.neg (diss_term source target k2 sigma sx sy sz) ∧
    rebx_calculate_spin_orbit_accelerations (negVel source) (negVel target)
        G k2 sigma (-sx) (-sy) (-sz) =
      Vec3.add (quad_term source target G k2 sx sy sz)
        (Vec3.neg (diss_term source target k2 sigma sx sy sz)) := by
  have hq : quad_term (negVel source) (negVel target) G k2 (-sx) (-sy) (-sz) =
      quad_term source target G k2 sx sy sz := by
    simp only [quad_term, negVel]
    rw [Vec3.mk.injEq]
    refine ⟨by ring, by ring, by ring⟩
  have hd : diss_term (negVel source) (negVel target) k2 sigma (-sx) (-sy) (-sz) =
      Vec3.neg (diss_term source target k2 sigma sx sy sz) := by
    simp only [diss_term, negVel, Vec3.neg]
    rw [Vec3.mk.injEq]
    refine ⟨by ring, by ring, by ring⟩
  refine ⟨hq, hd, ?_⟩
  rw [kernel_decomposition (negVel source) (negVel target) G k2 sigma
    (-sx) (-sy) (-sz) hk2, if_neg hs, hq, hd]

/-- Witness for the amended C6 at concrete bodies with k2 = sigma = 1. -/
theorem C6_amended_time_reversal_witness :
    quad_term (negVel pEx) (negVel qEx) 1 1 (-0) (-0) (-1) =
      quad_term pEx qEx 1 1 0 0 1 ∧
    diss_term (negVel pEx) (negVel qEx) 1 1 (-0) (-0) (-1) =
      Vec3.neg (diss_term pEx qEx 1 1 0 0 1) ∧
    rebx_calculate_spin_orbit_accelerations (negVel pEx) (negVel qEx)
        1 1 1 (-0) (-0) (-1) =
      Vec3.add (quad_term pEx qEx 1 1 0 0 1)
        (Vec3.neg (diss_term pEx qEx 1 1 0 0 1)) :=
  C6_amended_time_reversal pEx qEx 1 1 1 0 0 1 (by norm_num) (by norm_num)

/-- C3: for every pair evaluation of the accumulator (source with k2 and
all three spin components set, both masses nonzero, source distinct from
target), the target's acceleration is decremented by (m_source/m_total)
times the kernel force and the source's is incremented by
(m_target/m_total) times the same single force, so the applied changes
satisfy m_source dₐ(source) + m_target dₐ(target) = 0 exactly in real
arithmetic. -/
theorem C3_pair_momentum_conservation (source target : Particle)
    (G k2v sigmav sxv syv szv : ℝ)
    (hk2 : source.k2 = some k2v) (hsx : source.sx = some sxv)
    (hsy : source.sy = some syv) (hsz : source.sz = some szv)
    (hms : source.m ≠ 0) (hmt : target.m ≠ 0) (hne : source ≠ target) :
    (rebx_spin_orbit_accelerations source target G k2v sigmav sxv syv szv).2.ax =
      target.ax - (source.m / (source.m + target.m)) *
        (rebx_calculate_spin_orbit_accelerations source target G k2v sigmav sxv syv szv).x ∧
    (rebx_spin_orbit_accelerations source target G k2v sigmav sxv syv szv).2.ay =
      target.ay - (source.m / (source.m + target.m)) *
        (rebx_calculate_spin_orbit_accelerations source target G k2v sigmav sxv syv szv).y ∧
    (rebx_spin_orbit_accelerations source target G k2v sigmav sxv syv szv).2.az =
      target.az - (source.m / (source.m + target.m)) *
        (rebx_calculate_spin_orbit_accelerations source target G k2v sigmav sxv syv szv).z ∧
    (rebx_spin_orbit_accelerations source target G k2v sigmav sxv syv szv).1.ax =
      source.ax + (target.m / (source.m + target.m)) *
        (rebx_calculate_spin_orbit_accelerations source target G k2v sigmav sxv syv szv).x ∧
    (rebx_spin_orbit_accelerations source target G k2v sigmav sxv syv szv).1.ay =
      source.ay + (target.m / (source.m + target.m)) *
        (rebx_calculate_spin_orbit_accelerations source target G k2v sigmav sxv syv szv).y ∧
    (rebx_spin_orbit_accelerations source target G k2v sigmav sxv syv szv).1.az =
      source.az + (target.m / (source.m + target.m)) *
        (rebx_calculate_spin_orbit_accelerations source target G k2v sigmav sxv syv szv).z ∧
    source.m *
        ((rebx_spin_orbit_accelerations source target G k2v sigmav sxv syv szv).1.ax
          - source.ax) +
      target.m *
        ((rebx_spin_orbit_accelerations source target G k2v sigmav sxv syv szv).2.ax
          - target.ax) = 0 ∧
    source.m *
        ((rebx_spin_orbit_accelerations source target G k2v sigmav sxv syv szv).1.ay
          - source.ay) +
      target.m *
        ((rebx_spin_orbit_accelerations source target G k2v sigmav sxv syv szv).2.ay
          - target.ay) = 0 ∧
    source.m *
        ((rebx_spin_orbit_accelerations source target G k2v sigmav sxv syv szv).1.az
          - source.az) +
      target.m *
        ((rebx_spin_orbit_accelerations source target G k2v sigmav sxv syv szv).2.az
          - target.az) = 0 := by
  simp only [rebx_spin_orbit_accelerations]
  refine ⟨by ring, by ring, by ring, by ring, by ring, by ring, by ring,
    by ring, by ring⟩

/-- Witness for C3 at the concrete pair pEx, qEx. -/
theorem C3_pair_momentum_conservation_witness :
    (rebx_spin_orbit_accelerations pEx qEx 1 1 1 0 0 1).2.ax =
      qEx.ax - (pEx.m / (pEx.m + qEx.m)) *
        (rebx_calculate_spin_orbit_accelerations pEx qEx 1 1 1 0 0 1).x ∧
    (rebx_spin_orbit_accelerations pEx qEx 1 1 1 0 0 1).2.ay =
      qEx.ay - (pEx.m / (pEx.m + qEx.m)) *
        (rebx_calculate_spin_orbit_accelerations pEx qEx 1 1 1 0 0 1).y ∧
    (rebx_spin_orbit_accelerations pEx qEx 1 1 1 0 0 1).2.az =
      qEx.az - (pEx.m / (pEx.m + qEx.m)) *
        (rebx_calculate_spin_orbit_accelerations pEx qEx 1 1 1 0 0 1).z ∧
    (rebx_spin_orbit_accelerations pEx qEx 1 1 1 0 0 1).1.ax =
      pEx.ax + (qEx.m / (pEx.m + qEx.m)) *
        (rebx_calculate_spin_orbit_accelerations pEx qEx 1 1 1 0 0 1).x ∧
    (rebx_spin_orbit_accelerations pEx qEx 1 1 1 0 0 1).1.ay =
      pEx.ay + (qEx.m / (pEx.m + qEx.m)) *
        (rebx_calculate_spin_orbit_accelerations pEx qEx 1 1 1 0 0 1).y ∧
    (rebx_spin_orbit_accelerations pEx qEx 1 1 1 0 0 1).1.az =
      pEx.az + (qEx.m / (pEx.m + qEx.m)) *
        (rebx_calculate_spin_orbit_accelerations pEx qEx 1 1 1 0 0 1).z ∧
    pEx.m * ((rebx_spin_orbit_accelerations pEx qEx 1 1 1 0 0 1).1.ax - pEx.ax) +
      qEx.m * ((rebx_spin_orbit_accelerations pEx qEx 1 1 1 0 0 1).2.ax - qEx.ax) = 0 ∧
    pEx.m * ((rebx_spin_orbit_accelerations pEx qEx 1 1 1 0 0 1).1.ay - pEx.ay) +
      qEx.m * ((rebx_spin_orbit_accelerations pEx qEx 1 1 1 0 0 1).2.ay - qEx.ay) = 0 ∧
    pEx.m * ((rebx_spin_orbit_accelerations pEx qEx 1 1 1 0 0 1).1.az - pEx.az) +
      qEx.m * ((rebx_spin_orbit_accelerations pEx qEx 1 1 1 0 0 1).2.az - qEx.az) = 0 :=
  C3_pair_momentum_conservation pEx qEx 1 1 1 0 0 1 rfl rfl rfl rfl
    (by norm_num [pEx]) (by norm_num [qEx])
    (by intro h; have hm := congrArg Particle.k2 h; simp [pEx, qEx] at hm)

/-- Reading an element of a list after a `set`. -/
theorem getD_set_eq {α : Type _} (l : List α) (i j : ℕ) (a d : α) :
    (l.set i a).getD j d = if i = j ∧ i < l.length then a else l.getD j d := by
  simp only [List.getD_eq_getElem?_getD, List.getElem?_set]
  by_cases h : i = j
  · subst h
    by_cases h2 : i < l.length
    · simp [h2]
    · simp [h2, List.getElem?_eq_none (Nat.le_of_not_lt h2)]
  · simp [h]

/-- Agreement outside the acceleration fields is reflexive. -/
theorem eqExceptAccel_refl (p : Particle) : eqExceptAccel p p := by
  simp [eqExceptAccel]

/-- Agreement outside the acceleration fields is transitive. -/
theorem eqExceptAccel_trans {p q r : Particle} (h1 : eqExceptAccel p q)
    (h2 : eqExceptAccel q r) : eqExceptAccel p r := by
  simp only [eqExceptAccel] at *
  exact ⟨h1.1.trans h2.1, h1.2.1.trans h2.2.1, h1.2.2.1.trans h2.2.2.1,
    h1.2.2.2.1.trans h2.2.2.2.1, h1.2.2.2.2.1.trans h2.2.2.2.2.1,
    h1.2.2.2.2.2.1.trans h2.2.2.2.2.2.1,
    h1.2.2.2.2.2.2.1.trans h2.2.2.2.2.2.2.1,
    h1.2.2.2.2.2.2.2.1.trans h2.2.2.2.2.2.2.2.1,
    h1.2.2.2.2.2.2.2.2.1.trans h2.2.2.2.2.2.2.2.2.1,
    h1.2.2.2.2.2.2.2.2.2.1.trans h2.2.2.2.2.2.2.2.2.2.1,
    h1.2.2.2.2.2.2.2.2.2.2.1.trans h2.2.2.2.2.2.2.2.2.2.2.1,
    h1.2.2.2.2.2.2.2.2.2.2.2.1.trans h2.2.2.2.2.2.2.2.2.2.2.2.1,
    h1.2.2.2.2.2.2.2.2.2.2.2.2.1.trans h2.2.2.2.2.2.2.2.2.2.2.2.2.1,
    h1.2.2.2.2.2.2.2.2.2.2.2.2.2.trans h2.2.2.2.2.2.2.2.2.2.2.2.2.2⟩

/-- The pair accumulator changes only the source's acceleration fields. -/
theorem accum_pair_left (source target : Particle) (G k2 sigma sx sy sz : ℝ) :
    eqExceptAccel source
      (rebx_spin_orbit_accelerations source target G k2 sigma sx sy sz).1 := by
  simp [rebx_spin_orbit_accelerations, eqExceptAccel]

/-- The pair accumulator changes only the target's acceleration fields. -/
theorem accum_pair_right (source target : Particle) (G k2 sigma sx sy sz : ℝ) :
    eqExceptAccel target
      (rebx_spin_orbit_accelerations source target G k2 sigma sx sy sz).2 := by
  simp [rebx_spin_orbit_accelerations, eqExceptAccel]

/-- A predicate preserved by every step of a fold is preserved by the fold. -/
theorem foldl_inv {α β : Type _} (Inv : β → Prop) (f : β → α → β)
    (h : ∀ b a, Inv b → Inv (f b a)) :
    ∀ (l : List α) (b : β), Inv b → Inv (l.foldl f b)
  | [], _, hb => hb
  | a :: l, b, hb => foldl_inv Inv f h l (f b a) (h b a hb)

/-- The inner pair loop keeps every particle related to the original list by
agreement outside the acceleration fields, and keeps the length. -/
theorem tides_spin_inner_inv (ps : List Particle) (G k2 sigma sx sy sz : ℝ)
    (i N : ℕ) (acc : List Particle)
    (h : acc.length = ps.length ∧
      ∀ j, eqExceptAccel (ps.getD j default) (acc.getD j default)) :
    (tides_spin_inner G k2 sigma sx sy sz i N acc).length = ps.length ∧
      ∀ j, eqExceptAccel (ps.getD j default)
        ((tides_spin_inner G k2 sigma sx sy sz i N acc).getD j default) := by
  refine foldl_inv
    (fun b => b.length = ps.length ∧
      ∀ j, eqExceptAccel (ps.getD j default) (b.getD j default))
    _ ?_ (List.range N) acc h
  intro b jj hb
  dsimp only
  by_cases hij : i = jj
  · simp only [hij, if_true, ite_true]
    exact hb
  · simp only [hij, if_false, ite_false]
    by_cases hm : (b.getD i default).m = 0 ∨ (b.getD jj default).m = 0
    · simp only [hm, if_true, ite_true]
      exact hb
    · simp only [hm, if_false, ite_false]
      refine ⟨by simp [hb.1], ?_⟩
      intro j
      rw [getD_set_eq]
      by_cases ho : jj = j ∧ jj < (b.set i
          (rebx_spin_orbit_accelerations (b.getD i default) (b.getD jj default)
            G k2 sigma sx sy sz).1).length
      · rw [if_pos ho]
        exact eqExceptAccel_trans (ho.1 ▸ hb.2 jj)
          (accum_pair_right (b.getD i default) (b.getD jj default) G k2 sigma sx sy sz)
      · rw [if_neg ho, getD_set_eq]
        by_cases hi : i = j ∧ i < b.length
        · rw [if_pos hi]
          exact eqExceptAccel_trans (hi.1 ▸ hb.2 i)
            (accum_pair_left (b.getD i default) (b.getD jj default) G k2 sigma sx sy sz)
        · rw [if_neg hi]
          exact hb.2 j

/-- C9: `rebx_tides_spin` mutates only the acceleration fields of the
particles it is given: every other particle field (mass, position, velocity,
radius) and every per-body parameter tag (k2, sigma, moi, sx, sy, sz) is
left unchanged, for every configuration of bodies and tags. -/
theorem C9_tides_spin_mutates_only_accelerations (G : ℝ) (ps : List Particle) :
    List.Forall₂ eqExceptAccel ps (rebx_tides_spin G ps) := by
  have main : (rebx_tides_spin G ps).length = ps.length ∧
      ∀ j, eqExceptAccel (ps.getD j default)
        ((rebx_tides_spin G ps).getD j default) := by
    refine foldl_inv
      (fun b => b.length = ps.length ∧
        ∀ j, eqExceptAccel (ps.getD j default) (b.getD j default))
      _ ?_ (List.range ps.length) ps ⟨rfl, fun j => eqExceptAccel_refl _⟩
    intro b i hb
    dsimp only
    cases h1 : (b.getD i default).sx with
    | none => exact hb
    | some sxv =>
      cases h2 : (b.getD i default).sy with
      | none => exact hb
      | some syv =>
        cases h3 : (b.getD i default).sz with
        | none => exact hb
        | some szv =>
          cases h4 : (b.getD i default).k2 with
          | none => exact hb
          | some k2v =>
            exact tides_spin_inner_inv ps G k2v ((b.getD i default).sigma.getD 0)
              sxv syv szv i ps.length b hb
  rw [List.forall₂_iff_get]
  refine ⟨main.1.symm, ?_⟩
  intro i h1 h2
  have hg := main.2 i
  rwa [List.getD_eq_getElem?_getD, List.getD_eq_getElem?_getD,
    List.getElem?_eq_getElem h1, List.getElem?_eq_getElem h2] at hg

/-- Sum of a function mapped over `List.range` equals the `Finset.range`
sum. -/
theorem listmap_sum_range (f : ℕ → ℝ) :
    ∀ n : ℕ, ((List.range n).map f).sum = ∑ j ∈ Finset.range n, f j := by
  intro n
  induction n with
  | zero => simp
  | succ n ih =>
    rw [List.range_succ, Finset.sum_range_succ, List.map_append,
      List.sum_append, ih]
    simp

/-- The inner torque loop, started from an arbitrary accumulator, adds the
componentwise sums of the claimed per-body contributions. -/
theorem spin_torque_foldl (sim : Sim) (i : ℕ) (sx sy sz k2 sigma_in moi : ℝ) :
    ∀ (l : List ℕ) (v : Vec3),
      l.foldl (spin_torque_step sim i sx sy sz k2 sigma_in moi) v =
        ⟨v.x + (l.map (fun j => (torqueContrib sim i j sx sy sz k2 sigma_in moi).x)).sum,
         v.y + (l.map (fun j => (torqueContrib sim i j sx sy sz k2 sigma_in moi).y)).sum,
         v.z + (l.map (fun j => (torqueContrib sim i j sx sy sz k2 sigma_in moi).z)).sum⟩ := by
  intro l
  induction l with
  | nil => intro v; simp
  | cons j l ih =>
    intro v
    rw [List.foldl_cons, ih]
    simp only [List.map_cons, List.sum_cons]
    by_cases h : i = j
    · subst h
      simp only [spin_torque_step, torqueContrib, ne_eq, not_true_eq_false,
        if_false, ite_false, if_pos rfl, ite_true, Vec3.zero]
      rw [Vec3.mk.injEq]
      refine ⟨by ring, by ring, by ring⟩
    · have h' : ¬ (j = i) := fun hh => h hh.symm
      simp only [spin_torque_step, torqueContrib, ne_eq, h, h',
        not_false_eq_true, if_true, ite_true, if_false, ite_false,
        Vec3.smul, Vec3.cross]
      rw [Vec3.mk.injEq]
      refine ⟨by ring, by ring, by ring⟩

/-- The C torque loop for body i, with k2, sigma and moi read from body i's
parameter tags, computes exactly the claimed componentwise sums. -/
theorem spin_torque_eq_torqueSpec (sim : Sim) (i : ℕ) (sx sy sz : ℝ) :
    spin_torque sim i sx sy sz
      ((sim.particles.getD i default).k2.getD 0)
      ((sim.particles.getD i default).sigma.getD 0)
      ((sim.particles.getD i default).moi.getD 0) =
    torqueSpec sim i sx sy sz := by
  unfold spin_torque torqueSpec
  rw [spin_torque_foldl]
  rw [Vec3.mk.injEq]
  refine ⟨?_, ?_, ?_⟩ <;>
    simp [Vec3.zero, listmap_sum_range]

/-- Dropping the first slot triple of a flat vector steps the triple
index down by one. -/
theorem getTriple_cons3 (a b c : ℝ) (l : List ℝ) (n : ℕ) :
    getTriple (a :: b :: c :: l) (n + 1) = getTriple l n := by
  unfold getTriple
  rw [Vec3.mk.injEq]
  refine ⟨?_, ?_, ?_⟩
  · rw [show 3 * (n + 1) = 3 * n + 1 + 1 + 1 from by ring]
    simp [List.getD_cons_succ]
  · rw [show 3 * (n + 1) + 1 = 3 * n + 1 + 1 + 1 + 1 from by ring]
    simp [List.getD_cons_succ]
  · rw [show 3 * (n + 1) + 2 = 3 * n + 2 + 1 + 1 + 1 from by ring]
    simp [List.getD_cons_succ]

/-- Slot correspondence for the outer loop of `rebx_spin_derivatives`: the
n-th output triple, relative to a starting counter n0, is the torque of the
n-th eligible body of the remaining index list, with its spin read from
slots 3(n0+n).. of y. -/
theorem spin_derivatives_go_slots (sim : Sim) (y : List ℝ) :
    ∀ (L : List ℕ) (n0 n : ℕ),
      n < (L.filter (fun i => spin_elig (sim.particles.getD i default))).length →
      getTriple (spin_derivatives_go sim y L n0) n =
        spin_torque sim
          ((L.filter (fun i => spin_elig (sim.particles.getD i default))).getD n 0)
          (y.getD (3 * (n0 + n)) 0) (y.getD (3 * (n0 + n) + 1) 0)
          (y.getD (3 * (n0 + n) + 2) 0)
          ((sim.particles.getD
            ((L.filter (fun i => spin_elig (sim.particles.getD i default))).getD n 0)
            default).k2.getD 0)
          ((sim.particles.getD
            ((L.filter (fun i => spin_elig (sim.particles.getD i default))).getD n 0)
            default).sigma.getD 0)
          ((sim.particles.getD
            ((L.filter (fun i => spin_elig (sim.particles.getD i default))).getD n 0)
            default).moi.getD 0) := by
  intro L
  induction L with
  | nil => intro n0 n hn; simp at hn
  | cons i0 L ih =>
    intro n0 n hn
    by_cases he : spin_elig (sim.particles.getD i0 default) = true
    · have hk2s : (sim.particles.getD i0 default).k2.isSome := by
        have := he
        simp only [spin_elig, Bool.and_eq_true] at this
        exact this.1
      have hmois : (sim.particles.getD i0 default).moi.isSome := by
        have := he
        simp only [spin_elig, Bool.and_eq_true] at this
        exact this.2
      obtain ⟨k2v, hk⟩ := Option.isSome_iff_exists.mp hk2s
      obtain ⟨moiv, hm⟩ := Option.isSome_iff_exists.mp hmois
      rw [List.filter_cons_of_pos
        (p := fun i => spin_elig (sim.particles.getD i default)) he] at hn ⊢
      simp only [spin_derivatives_go, hk, hm]
      cases n with
      | zero =>
        simp only [List.getD_cons_zero, getTriple, Nat.mul_zero,
          Nat.add_zero, List.getD_cons_succ]
        rw [hk, hm]
        simp [Option.getD_some]
      | succ n =>
        rw [getTriple_cons3, List.getD_cons_succ]
        have hb : n < (L.filter
            (fun i => spin_elig (sim.particles.getD i default))).length := by
          simpa using Nat.lt_of_succ_lt_succ hn
        have := ih (n0 + 1) n hb
        rw [this, show n0 + 1 + n = n0 + (n + 1) from by omega]
    · have he' : ¬ (spin_elig (sim.particles.getD i0 default) = true) := he
      have hsplit : (sim.particles.getD i0 default).k2 = none ∨
          (sim.particles.getD i0 default).moi = none := by
        by_contra hcon
        push_neg at hcon
        apply he'
        simp only [spin_elig, Bool.and_eq_true, Option.isSome_iff_ne_none]
        exact hcon
      rw [List.filter_cons_of_neg
        (p := fun i => spin_elig (sim.particles.getD i default)) he'] at hn ⊢
      rcases hsplit with hno | hno
      · simp only [spin_derivatives_go, hno]
        cases hmo : (sim.particles.getD i0 default).moi with
        | none => exact ih n0 n hn
        | some mv => exact ih n0 n hn
      · simp only [spin_derivatives_go, hno]
        cases hko : (sim.particles.getD i0 default).k2 with
        | none => exact ih n0 n hn
        | some kv => exact ih n0 n hn

/-- C2: for every call of the spin derivative function whose declared ODE
length matches 3 times the count of eligible bodies (k2 and moi both set,
sigma defaulting to 0), the three derivative output slots assigned to the
n-th eligible body i equal the sum over every other real body j of
((r_i - r_j) x F_ij) scaled by -mu_ij/moi_i, with F_ij the kernel force
with i as source and spin read from slots 3n..3n+2 of y; the time argument
is unused. -/
theorem C2_spin_derivative_slots (sim : Sim) (y : List ℝ) (t t2 : ℝ)
    (odeLength : ℕ) (hlen : odeLength = 3 * Nelig sim)
    (n : ℕ) (hn : n < (eligIdx sim).length) :
    getTriple (rebx_spin_derivatives sim y t) n =
      torqueSpec sim ((eligIdx sim).getD n 0) (y.getD (3 * n) 0)
        (y.getD (3 * n + 1) 0) (y.getD (3 * n + 2) 0) ∧
    rebx_spin_derivatives sim y t = rebx_spin_derivatives sim y t2 := by
  refine ⟨?_, rfl⟩
  unfold rebx_spin_derivatives
  have h := spin_derivatives_go_slots sim y (List.range sim.particles.length) 0 n hn
  rw [h]
  simp only [Nat.zero_add]
  exact spin_torque_eq_torqueSpec sim ((eligIdx sim).getD n 0) _ _ _

/-- Witness for C2 on the concrete two-body simulation simEx with state
vector (0,0,1) for its single eligible body. -/
theorem C2_spin_derivative_slots_witness :
    getTriple (rebx_spin_derivatives simEx [0, 0, 1] 5) 0 =
      torqueSpec simEx ((eligIdx simEx).getD 0 0)
        (([0, 0, 1] : List ℝ).getD (3 * 0) 0)
        (([0, 0, 1] : List ℝ).getD (3 * 0 + 1) 0)
        (([0, 0, 1] : List ℝ).getD (3 * 0 + 2) 0) ∧
    rebx_spin_derivatives simEx [0, 0, 1] 5 =
      rebx_spin_derivatives simEx [0, 0, 1] 7 :=
  C2_spin_derivative_slots simEx [0, 0, 1] 5 7 3 (by rfl) 0 (by decide)

/-- The final counter of the pre-step copy loop is the starting counter plus
the number of remaining bodies with k2 set, independent of the state
vector. -/
theorem sync_pre_go_count :
    ∀ (ps : List Particle) (n : ℕ) (y : List ℝ),
      (sync_pre_go ps n y).1 = n + (ps.filter (fun p => p.k2.isSome)).length := by
  intro ps
  induction ps with
  | nil => intro n y; simp [sync_pre_go]
  | cons p rest ih =>
    intro n y
    by_cases hk : p.k2.isSome
    · simp [sync_pre_go, hk, ih, List.filter_cons]
      try omega
    · simp [sync_pre_go, hk, ih, List.filter_cons]
      try omega

/-- The final counter of the post-step write-back loop is the starting
counter plus the number of remaining bodies with k2 set. -/
theorem sync_post_go_count (y0 : List ℝ) :
    ∀ (ps : List Particle) (n : ℕ),
      (sync_post_go y0 ps n).1 = n + (ps.filter (fun p => p.k2.isSome)).length := by
  intro ps
  induction ps with
  | nil => intro n; simp [sync_post_go]
  | cons p rest ih =>
    intro n
    by_cases hk : p.k2.isSome
    · simp [sync_post_go, hk, ih, List.filter_cons]
      try omega
    · simp [sync_post_go, hk, ih, List.filter_cons]
      try omega

/-- Counterexample to C4 as stated: on simM (one body satisfying the
moi+spin criterion but lacking k2) with a state vector of the length the
moi+spin criterion predicts, the pre-step callback nevertheless raises the
fatal error, because the callbacks count bodies with k2 set; and on simP
(one k2-tagged body) with a mismatched declared length, the post-step
callback both raises the fatal error and has already overwritten the
body's spin tags (sx changes from some 0 to some 10). -/
theorem C4_counterexample :
    ((rebx_spin_sync_pre simM odeM).2 = true ∧
      odeM.length = 3 * countMoiSpin simM) ∧
    ((rebx_spin_sync_post simP odeP).2 = true ∧
      ((rebx_spin_sync_post simP odeP).1.particles.getD 0 default).sx = some 10 ∧
      pEx.sx = some 0 ∧
      ((rebx_spin_sync_post simP odeP).1.particles.getD 0 default).sx ≠ pEx.sx) := by
  refine ⟨⟨rfl, rfl⟩, rfl, rfl, rfl, ?_⟩
  intro h
  rw [show ((rebx_spin_sync_post simP odeP).1.particles.getD 0 default).sx =
    some (10:ℝ) from rfl, show pEx.sx = some (0:ℝ) from rfl] at h
  rw [Option.some.injEq] at h
  norm_num at h

/-- C4 amended: each synchronization callback re-validates the declared
length against 3 times the number of bodies with k2 set (not the moi+spin
criterion of ODE creation), flagging the fatal error exactly on mismatch;
the copy loops run before the check and do not depend on the declared
length, so in the post-step case per-body spin state is modified even when
the fatal error is raised. -/
theorem C4_amended_sync_validation (sim : Sim) (ode : Ode) :
    ((rebx_spin_sync_pre sim ode).2 = true ↔ ode.length ≠ 3 * countK2 sim) ∧
    ((rebx_spin_sync_post sim ode).2 = true ↔ ode.length ≠ 3 * countK2 sim) ∧
    (∀ L : ℕ, (rebx_spin_sync_post sim { y := ode.y, length := L }).1 =
      (rebx_spin_sync_post sim ode).1) ∧
    (∀ L : ℕ, (rebx_spin_sync_pre sim { y := ode.y, length := L }).1.y =
      (rebx_spin_sync_pre sim ode).1.y) := by
  refine ⟨?_, ?_, fun L => rfl, fun L => rfl⟩
  · simp only [rebx_spin_sync_pre, bne_iff_ne, ne_eq, sync_pre_go_count,
      Nat.zero_add, countK2]
  · simp only [rebx_spin_sync_post, bne_iff_ne, ne_eq, sync_post_go_count,
      Nat.zero_add, countK2]

/-- Witness for the amended C4 at the concrete simulation simP and state
vector odeP. -/
theorem C4_amended_sync_validation_witness :
    ((rebx_spin_sync_pre simP odeP).2 = true ↔ odeP.length ≠ 3 * countK2 simP) ∧
    ((rebx_spin_sync_post simP odeP).2 = true ↔ odeP.length ≠ 3 * countK2 simP) ∧
    (rebx_spin_sync_post simP { y := odeP.y, length := 99 }).1 =
      (rebx_spin_sync_post simP odeP).1 :=
  ⟨(C4_amended_sync_validation simP odeP).1,
   (C4_amended_sync_validation simP odeP).2.1,
   (C4_amended_sync_validation simP odeP).2.2.1 99⟩

/-- C10: the spin ODE is registered (with its derivative and pre/post
callbacks attached and length 3 N) if and only if the count N of real
bodies with moi, sx, sy and sz all set is positive — k2 is not required
for a body to be counted; when no body qualifies nothing is created. -/
theorem C10_initialize_ode (sim : Sim) :
    (0 < countMoiSpin sim →
      rebx_spin_initialize_ode sim =
        some { length := 3 * countMoiSpin sim,
               derivatives := rebx_spin_derivatives sim,
               pre_timestep := rebx_spin_sync_pre sim,
               post_timestep := rebx_spin_sync_post sim }) ∧
    (countMoiSpin sim = 0 → rebx_spin_initialize_ode sim = none) ∧
    ((rebx_spin_initialize_ode sim).isSome ↔ 0 < countMoiSpin sim) ∧
    (∀ p k2t, moi_spin_set { p with k2 := k2t } = moi_spin_set p) := by
  refine ⟨?_, ?_, ?_, ?_⟩
  · intro h
    simp only [rebx_spin_initialize_ode]
    rw [if_pos h, Option.some.injEq, SpinOde.mk.injEq]
    exact ⟨Nat.mul_comm _ _, rfl, rfl, rfl⟩
  · intro h
    simp only [rebx_spin_initialize_ode]
    rw [if_neg (by omega)]
  · simp only [rebx_spin_initialize_ode]
    by_cases h : 0 < countMoiSpin sim
    · rw [if_pos h]; simpa using h
    · rw [if_neg h]; simpa using h
  · intro p k2t
    simp [moi_spin_set]

/-- Witness for C10 on the two-body simulation simEx, whose single
moi+spin-tagged body makes the count positive. -/
theorem C10_initialize_ode_witness :
    rebx_spin_initialize_ode simEx =
      some { length := 3 * countMoiSpin simEx,
             derivatives := rebx_spin_derivatives simEx,
             pre_timestep := rebx_spin_sync_pre simEx,
             post_timestep := rebx_spin_sync_post simEx } :=
  (C10_initialize_ode simEx).1 (by decide)

/-- C8: with k2 set and a nonzero radius, the sigma derivation helpers
return 4 tau G/(3 R^5 k2) and 2 G/(3 Q R^5 k2 n) respectively without
reporting an error; with k2 absent or zero radius each reports the
non-fatal configuration error and returns the sentinel 0. -/
theorem C8_sigma_derivation (G tau Q n : ℝ) (body primary : Particle) :
    (∀ k2v : ℝ, body.k2 = some k2v → body.r ≠ 0 →
      rebx_tides_calc_sigma_from_tau G body tau =
        (4 * tau * G / (3 * body.r ^ 5 * k2v), false) ∧
      rebx_tides_calc_sigma_from_Q G body primary Q n =
        (2 * G / (3 * Q * body.r ^ 5 * k2v * n), false)) ∧
    ((body.k2 = none ∨ body.r = 0) →
      rebx_tides_calc_sigma_from_tau G body tau = (0, true) ∧
      rebx_tides_calc_sigma_from_Q G body primary Q n = (0, true)) := by
  constructor
  · intro k2v hk hr
    constructor
    · simp only [rebx_tides_calc_sigma_from_tau, hk, Option.getD_some]
      rw [if_pos ⟨by simp, hr⟩, Prod.mk.injEq]
      exact ⟨by ring, rfl⟩
    · simp only [rebx_tides_calc_sigma_from_Q, hk, Option.getD_some]
      rw [if_pos ⟨by simp, hr⟩, Prod.mk.injEq]
      exact ⟨by ring, rfl⟩
  · intro h
    have hcond : ¬((body.k2.isSome : Prop) ∧ body.r ≠ 0) := by
      rcases h with h | h
      · intro hc
        rw [h] at hc
        simp at hc
      · intro hc
        exact hc.2 h
    constructor
    · simp only [rebx_tides_calc_sigma_from_tau]
      rw [if_neg hcond]
    · simp only [rebx_tides_calc_sigma_from_Q]
      rw [if_neg hcond]

/-- Witness for C8: the success path on pEx (k2 = 1, radius 1) and the
error path on qEx (no k2). -/
theorem C8_sigma_derivation_witness :
    (rebx_tides_calc_sigma_from_tau 1 pEx 2 =
        (4 * 2 * 1 / (3 * pEx.r ^ 5 * 1), false) ∧
      rebx_tides_calc_sigma_from_Q 1 pEx qEx 3 5 =
        (2 * 1 / (3 * 3 * pEx.r ^ 5 * 1 * 5), false)) ∧
    (rebx_tides_calc_sigma_from_tau 1 qEx 2 = (0, true) ∧
      rebx_tides_calc_sigma_from_Q 1 qEx pEx 3 5 = (0, true)) :=
  ⟨(C8_sigma_derivation 1 2 3 5 pEx qEx).1 1 rfl (by norm_num [pEx]),
   (C8_sigma_derivation 1 2 3 5 qEx pEx).2 (Or.inl rfl)⟩

/-- A fold whose every step adds a per-element amount totals the mapped
sum. -/
theorem foldl_add_shape (step : ℝ → ℕ → ℝ) (g : ℕ → ℝ)
    (hstep : ∀ b j, step b j = b + g j) :
    ∀ (l : List ℕ) (b : ℝ), l.foldl step b = b + (l.map g).sum := by
  intro l
  induction l with
  | nil => intro b; simp
  | cons j l ih =>
    intro b
    rw [List.foldl_cons, hstep, ih, List.map_cons, List.sum_cons]
    ring

/-- Each inner iteration of the potential loop adds `potInnerG`. -/
theorem inner_step_adds (sim : Sim) (i : ℕ) :
    ∀ (b : ℝ) (j : ℕ), spin_potential_inner_step sim i b j = b + potInnerG sim i j := by
  intro b j
  simp only [spin_potential_inner_step, potInnerG]
  by_cases h1 : i = j
  · rw [if_pos h1, if_pos h1]
    ring
  · rw [if_neg h1, if_neg h1]
    by_cases h2 : (sim.particles.getD i default).m = 0 ∨
        (sim.particles.getD j default).m = 0
    · rw [if_pos h2, if_pos h2]
      ring
    · rw [if_neg h2, if_neg h2]

/-- Each outer iteration of the potential loop adds `potOuterG`. -/
theorem outer_step_adds (sim : Sim) :
    ∀ (b : ℝ) (i : ℕ), spin_potential_outer_step sim b i = b + potOuterG sim i := by
  intro b i
  simp only [spin_potential_outer_step, potOuterG]
  by_cases h : (sim.particles.getD i default).k2 = none ∨
      (sim.particles.getD i default).sigma = none ∨
      (sim.particles.getD i default).r = 0 ∨
      (sim.particles.getD i default).m = 0
  · rw [if_pos h, if_pos h]
    ring
  · rw [if_neg h, if_neg h,
      foldl_add_shape (spin_potential_inner_step sim i) (potInnerG sim i)
        (inner_step_adds sim i)]

/-- The C pair potential, with k2 read from the source's tag, equals the
claimed pair formula with the separation distance r. -/
theorem calc_pot_eq_spec (sim : Sim) (i j : ℕ) :
    rebx_calculate_spin_potential (sim.particles.getD i default)
      (sim.particles.getD j default) sim.G
      ((sim.particles.getD i default).k2.getD 0) = potSpecTerm sim i j := by
  set s := sim.particles.getD i default
  set t := sim.particles.getD j default
  have hd2 : (0:ℝ) ≤ (t.x - s.x) ^ 2 + (t.y - s.y) ^ 2 + (t.z - s.z) ^ 2 := by
    positivity
  have h := Real.sq_sqrt hd2
  simp only [rebx_calculate_spin_potential, potSpecTerm]
  rw [show (t.x - s.x) * (t.x - s.x) + (t.y - s.y) * (t.y - s.y) +
      (t.z - s.z) * (t.z - s.z) =
      (t.x - s.x) ^ 2 + (t.y - s.y) ^ 2 + (t.z - s.z) ^ 2 from by ring]
  set S := Real.sqrt ((t.x - s.x) ^ 2 + (t.y - s.y) ^ 2 + (t.z - s.z) ^ 2) with hS
  rw [← h]
  ring

/-- C7: `rebx_spin_potential` is the sum, over all ordered pairs of
distinct real bodies whose source has k2 and sigma set with nonzero radius
and mass and whose target has nonzero mass, of
-(1/2) G m_source m_target (m_source/m_target) k2 R_target^5 / r^6, with k2
the source's Love number and R_target the target's radius. -/
theorem C7_spin_potential (sim : Sim) :
    rebx_spin_potential sim =
      ∑ i ∈ Finset.range sim.particles.length,
        ∑ j ∈ Finset.range sim.particles.length,
          if potPairOK sim i j then potSpecTerm sim i j else 0 := by
  unfold rebx_spin_potential
  rw [foldl_add_shape (spin_potential_outer_step sim) (potOuterG sim)
    (outer_step_adds sim), listmap_sum_range, zero_add]
  refine Finset.sum_congr rfl ?_
  intro i hi
  unfold potOuterG
  by_cases h : (sim.particles.getD i default).k2 = none ∨
      (sim.particles.getD i default).sigma = none ∨
      (sim.particles.getD i default).r = 0 ∨
      (sim.particles.getD i default).m = 0
  · rw [if_pos h]
    symm
    refine Finset.sum_eq_zero ?_
    intro j hj
    rw [if_neg]
    intro hOK
    rcases h with h | h | h | h
    · exact hOK.2.1 h
    · exact hOK.2.2.1 h
    · exact hOK.2.2.2.1 h
    · exact hOK.2.2.2.2.1 h
  · rw [if_neg h, listmap_sum_range]
    push_neg at h
    refine Finset.sum_congr rfl ?_
    intro j hj
    unfold potInnerG
    by_cases hij : i = j
    · rw [if_pos hij, if_neg]
      intro hOK
      exact hOK.1 hij
    · rw [if_neg hij]
      by_cases hm : (sim.particles.getD i default).m = 0 ∨
          (sim.particles.getD j default).m = 0
      · rw [if_pos hm, if_neg]
        intro hOK
        rcases hm with hm0 | hm0
        · exact h.2.2.2 hm0
        · exact hOK.2.2.2.2.2 hm0
      · rw [if_neg hm,
          if_pos ⟨hij, h.1, h.2.1, h.2.2.1, h.2.2.2, fun hh => hm (Or.inr hh)⟩]
        exact calc_pot_eq_spec sim i j

end
